import Mathlib

/-!
Verification development for the query-matching and property-validation
engine of pyvisa-sim (`pyvisa-sim/component.py`).

The source file is embedded shallowly: Python scalar values become the
inductive `PyVal` (ints as `Int`, floats as `Rat`, strings as `String`),
Python exceptions become the inductive `PyErr` carried in `Except`, and the
methods of `Property` and `Component` become Lean functions.  Python
builtins used by the source (`int()`, `float()`, `str()`, `str.replace`,
`bytes.decode`, `str.encode`) are modelled explicitly below; each model
notes its simplifications in its doc comment.
-/

namespace PyvisaSim

/-- Python scalar values handled by the engine: `int`, `float` (modelled as
a rational number, which is exact on the decimal literals the engine
handles; IEEE rounding is not modelled) and `str`. -/
inductive PyVal where
  | int (n : Int)
  | float (q : Rat)
  | str (s : String)
deriving DecidableEq

/-- Python exception values raised by the embedded code.  `valueError`
carries the optional message (`ValueError` with no argument is
`valueError none`); `unicodeDecodeError` is the class raised by
`bytes.decode`, a subclass of `ValueError` in Python. -/
inductive PyErr where
  | valueError (msg : Option String)
  | typeError
  | keyError
  | unicodeDecodeError
deriving DecidableEq

/-- Decidable equality of `Except` results, for evaluating the embedded
operations at concrete inputs. -/
instance {ε α : Type} [DecidableEq ε] [DecidableEq α] : DecidableEq (Except ε α) := by
  intro x y
  cases x <;> cases y
  case error.error a b =>
    exact if h : a = b then .isTrue (by rw [h]) else .isFalse (by simp [h])
  case ok.ok a b =>
    exact if h : a = b then .isTrue (by rw [h]) else .isFalse (by simp [h])
  case error.ok a b => exact .isFalse (by simp)
  case ok.error a b => exact .isFalse (by simp)

/-- The Python class of an exception, forgetting its payload.  Used to
state what a caller can distinguish with `except SomeClass`. -/
inductive PyClass where
  | valueError
  | typeError
  | keyError
  | unicodeDecodeError
deriving DecidableEq

/-- The class of an exception value. -/
def PyErr.cls : PyErr → PyClass
  | .valueError _ => .valueError
  | .typeError => .typeError
  | .keyError => .keyError
  | .unicodeDecodeError => .unicodeDecodeError

/-- Whether `except ValueError` catches this exception: true for
`ValueError` itself and for its subclass `UnicodeDecodeError`. -/
def PyErr.isValueError : PyErr → Bool
  | .valueError _ => true
  | .unicodeDecodeError => true
  | _ => false

/-! ## Models of the Python builtins used by `component.py` -/

/-- All characters are ASCII digits. -/
def allDigits (l : List Char) : Bool := l.all (fun c => c.isDigit)

/-- Value of a digit string (most significant first). -/
def digitsToNat (l : List Char) : Nat :=
  l.foldl (fun a c => 10 * a + (c.toNat - 48)) 0

/-- A nonempty all-digit string, as a number. -/
def parseUnsignedDigits (l : List Char) : Option Nat :=
  if !l.isEmpty && allDigits l then some (digitsToNat l) else none

/-- Strip one leading sign character, reporting whether it was a minus. -/
def stripSign : List Char → (Bool × List Char)
  | '-' :: t => (true, t)
  | '+' :: t => (false, t)
  | l => (false, l)

/-- Split a list at the first character satisfying `p` (the matching
character is dropped); `none` when no character matches. -/
def splitFirstPred (p : Char → Bool) : List Char → Option (List Char × List Char)
  | [] => none
  | c :: cs =>
    if p c then some ([], cs)
    else (splitFirstPred p cs).map (fun pr => (c :: pr.1, pr.2))

/-- `10 ^ e` over the rationals for a signed exponent. -/
def pow10 (e : Int) : Rat :=
  if 0 ≤ e then (10 : Rat) ^ e.toNat else ((10 : Rat) ^ (-e).toNat)⁻¹

/-- Mantissa of a Python float literal: digits with an optional decimal
point, at least one digit overall. -/
def parseMantissa (l : List Char) : Option Rat :=
  match splitFirstPred (fun c => c = '.') l with
  | none => (parseUnsignedDigits l).map (fun n => (n : Rat))
  | some (ip, fp) =>
    if allDigits ip && allDigits fp && (!ip.isEmpty || !fp.isEmpty) then
      some ((digitsToNat ip : Rat) + (digitsToNat fp : Rat) / (10 : Rat) ^ fp.length)
    else none

/-- Exponent part of a Python float literal: optional sign, then digits. -/
def parseExponent (l : List Char) : Option Int :=
  let (neg, d) := stripSign l
  (parseUnsignedDigits d).map (fun n => if neg then -(n : Int) else (n : Int))

/-- Model of Python `float(str)` on ordinary decimal literals: optional
sign, digits with optional decimal point, optional `e`/`E` exponent.
Surrounding whitespace, digit-group underscores, `inf` and `nan` are not
modelled; on everything else unparseable input means `ValueError`, as in
Python. -/
def pyFloatParse (s : String) : Option Rat :=
  let (neg, l) := stripSign s.data
  match splitFirstPred (fun c => c = 'e' || c = 'E') l with
  | none => (parseMantissa l).map (fun m => if neg then -m else m)
  | some (mant, ex) =>
    match parseMantissa mant, parseExponent ex with
    | some m, some e => some ((if neg then -m else m) * pow10 e)
    | _, _ => none

/-- Model of Python `int(str)`: optional sign then digits (a decimal point
or exponent is a `ValueError`, as in Python; surrounding whitespace and
underscores are not modelled). -/
def pyIntParse (s : String) : Option Int :=
  let (neg, l) := stripSign s.data
  (parseUnsignedDigits l).map (fun n => if neg then -(n : Int) else (n : Int))

/-- Truncation toward zero, the behaviour of Python `int(float)`. -/
def ratTrunc (q : Rat) : Int :=
  if 0 ≤ q then ⌊q⌋ else -⌊-q⌋

/-- Simplified rendering of a float, used by the model of `str()`.
Python's shortest-round-trip repr is not modelled; integral values render
as in Python (`2.0`), and no claim below depends on the non-integral
rendering. -/
def floatRepr (q : Rat) : String :=
  if q.den = 1 then toString q.num ++ ".0"
  else toString q.num ++ "e-:" ++ toString q.den

/-- Model of Python `str()` on the engine's scalar values. -/
def pyStrOf : PyVal → String
  | .str s => s
  | .int n => toString n
  | .float q => floatRepr q

/-- Model of Python `==` on the engine's scalar values: numbers compare by
value across `int`/`float`, strings compare as strings, and a string never
equals a number. -/
def pyEq : PyVal → PyVal → Bool
  | .int m, .int n => m = n
  | .int m, .float q => (m : Rat) = q
  | .float q, .int n => q = (n : Rat)
  | .float p, .float q => p = q
  | .str a, .str b => a = b
  | _, _ => false

/-- Model of Python `<` on the engine's scalar values: numbers compare by
value, strings compare lexicographically by code point, and comparing a
string with a number raises `TypeError`. -/
def pyLt : PyVal → PyVal → Except PyErr Bool
  | .int m, .int n => .ok (decide (m < n))
  | .int m, .float q => .ok (decide ((m : Rat) < q))
  | .float p, .int n => .ok (decide (p < (n : Rat)))
  | .float p, .float q => .ok (decide (p < q))
  | .str a, .str b => .ok (decide (a < b))
  | _, _ => .error .typeError

/-- Model of Python `>`: for the `int`/`float`/`str` values handled here,
`a > b` delegates to `b < a`. -/
def pyGt (a b : PyVal) : Except PyErr Bool := pyLt b a

/-- Model of Python `float(x)` on engine values. -/
def pyFloatFn : PyVal → Except PyErr PyVal
  | .int n => .ok (.float (n : Rat))
  | .float q => .ok (.float q)
  | .str s =>
    match pyFloatParse s with
    | some q => .ok (.float q)
    | none => .error (.valueError (some ("could not convert string to float: " ++ s)))

/-- Model of Python `int(x)` on engine values. -/
def pyIntFn : PyVal → Except PyErr PyVal
  | .int n => .ok (.int n)
  | .float q => .ok (.int (ratTrunc q))
  | .str s =>
    match pyIntParse s with
    | some n => .ok (.int n)
    | none => .error (.valueError (some ("invalid literal for int with base 10: " ++ s)))

/-! ## The Property data model (`component.py`, class `Property`) -/

/-- The value of `specs['type']` after `Property.__init__` ran: one of the
three recognised constructors, or (`other`) an explicit type string that is
not `float`/`int`/`str`, which `__init__` leaves in place unconverted;
calling it later raises `TypeError` since a string is not callable. -/
inductive TypeSpec where
  | float
  | int
  | str
  | other (s : String)
deriving DecidableEq

/-- The runtime type of a value, as Python `type(value)` sees it. -/
def typeOfVal : PyVal → TypeSpec
  | .int _ => .int
  | .float _ => .float
  | .str _ => .str

/-- Applying `specs['type']` to a value, as `validate_value` and
`__init__` do: the recognised constructors coerce, an unconverted type
string raises `TypeError` (a `str` is not callable). -/
def coerceBy : TypeSpec → PyVal → Except PyErr PyVal
  | .float, v => pyFloatFn v
  | .int, v => pyIntFn v
  | .str, v => .ok (.str (pyStrOf v))
  | .other _, _ => .error .typeError

/-- The `valid` entry as supplied to `Property.__init__`: either a
non-dict iterable of values or a dict mapping wire values to display
values (an association list keeps the dict's key order; real dicts have
pairwise unequal keys). -/
inductive ValidIn where
  | vlist (l : List PyVal)
  | vdict (m : List (PyVal × PyVal))
deriving DecidableEq

/-- `specs['valid']` after `__init__`: the non-dict form was coerced
elementwise into a set, the dict form is kept as supplied (its keys are
not coerced). -/
inductive ValidSpec where
  | vset (l : List PyVal)
  | vmap (m : List (PyVal × PyVal))
deriving DecidableEq

/-- The specification dictionary handed to `Property.__init__`: the
optional raw `type` string and the optional `min`/`max`/`valid` entries.
(The loader supplies `type` as a string; an absent or empty string is
falsy in the source and triggers type inference from the default value.) -/
structure SpecsIn where
  type : Option String
  min : Option PyVal
  max : Option PyVal
  valid : Option ValidIn
deriving DecidableEq

/-- The specification dictionary after `Property.__init__` rewrote it:
`type` is always present, `min`/`max` were coerced, a non-dict `valid` was
coerced into a set. -/
structure Specs where
  type : TypeSpec
  min : Option PyVal
  max : Option PyVal
  valid : Option ValidSpec
deriving DecidableEq

/-- A constructed `Property`: its name, its rewritten specs and the stored
value `self._value`. -/
structure Property where
  name : String
  specs : Specs
  _value : PyVal
deriving DecidableEq

/-- The `min` check of `validate_value`: when `min` is declared and
`value_parsed < specs['min']`, a bare `ValueError`; a `TypeError` from the
comparison propagates. -/
def checkMin (specs : Specs) (vp : PyVal) : Option PyErr :=
  match specs.min with
  | none => none
  | some m =>
    match pyLt vp m with
    | .error e => some e
    | .ok true => some (.valueError none)
    | .ok false => none

/-- The `max` check of `validate_value`: when `max` is declared and
`value_parsed > specs['max']`, a bare `ValueError`. -/
def checkMax (specs : Specs) (vp : PyVal) : Option PyErr :=
  match specs.max with
  | none => none
  | some m =>
    match pyGt vp m with
    | .error e => some e
    | .ok true => some (.valueError none)
    | .ok false => none

/-- The `valid` check of `validate_value`: membership (by Python `==`) in
the set, or among the dict's keys; on failure a `ValueError` with a
message (the source formats the offending value into the message; the
text is simplified here, the class and presence of a message are what
matter). -/
def checkValid (specs : Specs) (vp : PyVal) : Option PyErr :=
  match specs.valid with
  | none => none
  | some (.vset l) =>
    if l.any (fun x => pyEq vp x) then none
    else some (.valueError (some "expected value to be in valid"))
  | some (.vmap m) =>
    if m.any (fun kv => pyEq vp kv.1) then none
    else some (.valueError (some "expected value to be one of the valid keys"))

/-- `Property.validate_value`: coerce through `specs['type']` (always
present after construction), then check `min`, then `max`, then `valid`,
raising at the first failure; on success return the coerced value. -/
def validate_value (specs : Specs) (value : PyVal) : Except PyErr PyVal :=
  match coerceBy specs.type value with
  | .error e => .error e
  | .ok vp =>
    match checkMin specs vp with
    | some e => .error e
    | none =>
      match checkMax specs vp with
      | some e => .error e
      | none =>
        match checkValid specs vp with
        | some e => .error e
        | none => .ok vp

/-- `Property.set_value`: `self._value = self.validate_value(value)` — the
assignment only happens after validation returned, so a raising call
leaves `_value` untouched. -/
def Property.set_value (p : Property) (value : PyVal) : Except PyErr Property :=
  match validate_value p.specs value with
  | .ok vp => .ok { p with _value := vp }
  | .error e => .error e

/-- The state of a `Property` object after a `set_value` call whether or
not it raised: on success the updated object, on an exception the object
as it was (the assignment to `_value` never ran). -/
def tryWrite (p : Property) (v : PyVal) : Property :=
  match p.set_value v with
  | .ok p' => p'
  | .error _ => p

/-- `Property.get_value`: when `valid` is a dict, look the stored value up
in it (first key equal under Python `==`; a miss is a `KeyError`),
otherwise return the stored value. -/
def Property.get_value (p : Property) : Except PyErr PyVal :=
  match p.specs.valid with
  | some (.vmap m) =>
    match m.find? (fun kv => pyEq p._value kv.1) with
    | some kv => .ok kv.2
    | none => .error .keyError
  | _ => .ok p._value

/-- The type-resolution step of `Property.__init__`: an explicit truthy
`type` string is mapped to the matching constructor or kept verbatim
(`other`) when unrecognised; a missing or empty `type` falls back to the
default value's runtime type. -/
def resolveType (tspec : Option String) (value : PyVal) : TypeSpec :=
  match tspec with
  | none => typeOfVal value
  | some t =>
    if t = "" then typeOfVal value
    else if t = "float" then .float
    else if t = "int" then .int
    else if t = "str" then .str
    else .other t

/-- Coercion of an optional specs entry (`min`/`max`) by the resolved
type, as `__init__` does for each bound present. -/
def coerceOpt (t : TypeSpec) : Option PyVal → Except PyErr (Option PyVal)
  | none => .ok none
  | some v =>
    match coerceBy t v with
    | .ok w => .ok (some w)
    | .error e => .error e

/-- The `valid` rewriting of `__init__`: a dict passes through unchanged;
anything else is coerced elementwise into a set. -/
def coerceValidIn (t : TypeSpec) : Option ValidIn → Except PyErr (Option ValidSpec)
  | none => .ok none
  | some (.vdict m) => .ok (some (.vmap m))
  | some (.vlist l) =>
    match l.mapM (coerceBy t) with
    | .ok l' => .ok (some (.vset l'))
    | .error e => .error e

/-- `Property.__init__`: resolve the type, coerce `min`, `max` and a
non-dict `valid`, then validate and store the default value through the
same `set_value` path as any later write.  Any exception aborts the
construction. -/
def Property.construct (name : String) (value : PyVal) (specsIn : SpecsIn) :
    Except PyErr Property :=
  let t := resolveType specsIn.type value
  match coerceOpt t specsIn.min with
  | .error e => .error e
  | .ok min' =>
    match coerceOpt t specsIn.max with
    | .error e => .error e
    | .ok max' =>
      match coerceValidIn t specsIn.valid with
      | .error e => .error e
      | .ok valid' =>
        let specs : Specs := ⟨t, min', max', valid'⟩
        match validate_value specs value with
        | .error e => .error e
        | .ok v => .ok ⟨name, specs, v⟩

/-- A sequence of write attempts against a property, each through the
exception-catching `tryWrite` (a failed write leaves the state alone). -/
def runWrites (p : Property) : List PyVal → Property
  | [] => p
  | v :: vs => runWrites (tryWrite p v) vs

/-! ## Bytes, text escapes and UTF-8 (`to_bytes`, `encode`, `decode`) -/

/-- Python `bytes` as a list of byte values. -/
abbrev Bytes := List Nat

/-- UTF-8 encoding of one character (its code point split into the usual
1 to 4 bytes). -/
def utf8EncodeChar (c : Char) : Bytes :=
  let n := c.toNat
  if n < 0x80 then [n]
  else if n < 0x800 then [0xC0 + n / 64, 0x80 + n % 64]
  else if n < 0x10000 then
    [0xE0 + n / 4096, 0x80 + n / 64 % 64, 0x80 + n % 64]
  else
    [0xF0 + n / 262144, 0x80 + n / 4096 % 64, 0x80 + n / 64 % 64, 0x80 + n % 64]

/-- UTF-8 encoding of a character list. -/
def utf8EncodeL : List Char → Bytes
  | [] => []
  | c :: cs => utf8EncodeChar c ++ utf8EncodeL cs

/-- Model of Python `str.encode('utf-8')` (also the default of
`str.encode()`). -/
def utf8Encode (s : String) : Bytes := utf8EncodeL s.data

/-- A UTF-8 continuation byte. -/
def isCont (b : Nat) : Bool := 0x80 ≤ b && b ≤ 0xBF

/-- Model of Python `bytes.decode('utf-8')` as the strict UTF-8 decoder:
rejects invalid start bytes, truncated or ill-formed sequences, overlong
encodings, surrogates and code points above U+10FFFF; `none` stands for
`UnicodeDecodeError`. -/
def utf8Decode : Bytes → Option (List Char)
  | [] => some []
  | b :: rest =>
    if b < 0x80 then (utf8Decode rest).map (fun cs => Char.ofNat b :: cs)
    else if 0xC2 ≤ b && b ≤ 0xDF then
      match rest with
      | b2 :: r =>
        if isCont b2 then
          (utf8Decode r).map (fun cs => Char.ofNat ((b - 0xC0) * 64 + (b2 - 0x80)) :: cs)
        else none
      | [] => none
    else if 0xE0 ≤ b && b ≤ 0xEF then
      match rest with
      | b2 :: b3 :: r =>
        let lo2 := if b = 0xE0 then 0xA0 else 0x80
        let hi2 := if b = 0xED then 0x9F else 0xBF
        if (lo2 ≤ b2 && b2 ≤ hi2) && isCont b3 then
          (utf8Decode r).map
            (fun cs => Char.ofNat ((b - 0xE0) * 4096 + (b2 - 0x80) * 64 + (b3 - 0x80)) :: cs)
        else none
      | _ => none
    else if 0xF0 ≤ b && b ≤ 0xF4 then
      match rest with
      | b2 :: b3 :: b4 :: r =>
        let lo2 := if b = 0xF0 then 0x90 else 0x80
        let hi2 := if b = 0xF4 then 0x8F else 0xBF
        if (lo2 ≤ b2 && b2 ≤ hi2) && (isCont b3 && isCont b4) then
          (utf8Decode r).map
            (fun cs =>
              Char.ofNat
                ((b - 0xF0) * 262144 + (b2 - 0x80) * 4096 + (b3 - 0x80) * 64 + (b4 - 0x80)) :: cs)
        else none
      | _ => none
    else none

/-- Model of Python `str.replace(old, new)` for a two-character pattern
`o1 o2` replaced by the single character `new` (the only shape `to_bytes`
uses): scan left to right, replacing non-overlapping occurrences. -/
def replace2 (o1 o2 new : Char) : List Char → List Char
  | [] => []
  | [c] => [c]
  | c1 :: c2 :: cs =>
    if c1 = o1 ∧ c2 = o2 then new :: replace2 o1 o2 new cs
    else c1 :: replace2 o1 o2 new (c2 :: cs)

/-- `str.replace` lifted to strings (two-character patterns as used by
`to_bytes`). -/
def pyReplace2 (o1 o2 : Char) (new : Char) (s : String) : String :=
  ⟨replace2 o1 o2 new s.data⟩

/-- The argument of `to_bytes`: a definition text string, or the
`NoResponse` sentinel object. -/
inductive InVal where
  | str (s : String)
  | noResponse
deriving DecidableEq

/-- A registered response value: encoded bytes, or the `NoResponse`
sentinel (a distinct object, not a byte string). -/
inductive RespVal where
  | bytes (b : Bytes)
  | noResponse
deriving DecidableEq

/-- `to_bytes`: the `NoResponse` sentinel passes through unchanged; a
string has its two-character escapes for carriage return and line feed
expanded to the control characters and is then UTF-8 encoded. -/
def to_bytes : InVal → RespVal
  | .noResponse => .noResponse
  | .str s =>
    .bytes (utf8Encode (pyReplace2 '\\' 'n' '\n' (pyReplace2 '\\' 'r' '\r' s)))

/-- `to_bytes` on a query string, which the source always passes as text
(the dialogue and getter table keys are its encoded bytes). -/
def to_bytesQ (s : String) : Bytes :=
  utf8Encode (pyReplace2 '\\' 'n' '\n' (pyReplace2 '\\' 'r' '\r' s))

/-! ## The Component data model (`component.py`, class `Component`) -/

/-- Lookup in an association list modelling a Python dict (first binding
of the key). -/
def assocGet {κ α : Type} [DecidableEq κ] : List (κ × α) → κ → Option α
  | [], _ => none
  | (k, v) :: t, k' => if k = k' then some v else assocGet t k'

/-- Update-or-insert in an association list modelling a Python dict
(`d[k] = v`; insertion order of new keys is preserved). -/
def assocSet {κ α : Type} [DecidableEq κ] : List (κ × α) → κ → α → List (κ × α)
  | [], k, v => [(k, v)]
  | (k0, v0) :: t, k, v =>
    if k0 = k then (k, v) :: t else (k0, v0) :: assocSet t k v

/-- One entry of `Component._setters`: the property name, the compiled
`stringparser.Parser` for the pattern (an external library, modelled as
the parse function it denotes: `none` is the `ValueError` it raises when
the query does not fit the pattern), and the `to_bytes`-converted success
and error responses. -/
structure Setter where
  name : String
  parse : String → Option PyVal
  response : RespVal
  error_response : RespVal

/-- A `Component`: the dialogue, property, getter and setter tables.
`command_error` is modelled from the spec: the generic command-error
response `self.error_response('command_error')` returned when a setter has
no byte-encoded error response (the `error_response` method is defined
outside `src/`). -/
structure Component where
  _dialogues : List (Bytes × RespVal)
  _properties : List (String × Property)
  _getters : List (Bytes × (String × String))
  _setters : List Setter
  command_error : RespVal

/-- `Component.add_dialogue`: register `to_bytes(query) ↦
to_bytes(response)` in the dialogue table. -/
def Component.add_dialogue (c : Component) (query : String) (response : InVal) : Component :=
  { c with _dialogues := assocSet c._dialogues (to_bytesQ query) (to_bytes response) }

/-- `Component._match_dialog`: exact lookup of the query bytes in the
dialogue table; `none` when absent. -/
def Component._match_dialog (c : Component) (query : Bytes) : Option RespVal :=
  assocGet c._dialogues query

/-- Substitution of the value's string form for the first `{...}`
placeholder, modelling the `response.format(value)` call of
`_match_getters`.  Format specifications inside the braces are not
interpreted (the claims below never depend on them); a template without a
placeholder is returned unchanged, as in Python. -/
def pyFormat (template : String) (v : PyVal) : String :=
  match splitFirstPred (fun c => c = '{') template.data with
  | none => template
  | some (before, rest) =>
    match splitFirstPred (fun c => c = '}') rest with
    | none => template
    | some (_, after) => ⟨before ++ (pyStrOf v).data ++ after⟩

/-- `Component._match_getters`: exact lookup of the query bytes in the
getter table; on a hit, read the referenced property (a missing name is a
`KeyError`, a failing read propagates), format the response template with
the value and encode it; `none` when the query is not a getter. -/
def Component._match_getters (c : Component) (query : Bytes) :
    Except PyErr (Option Bytes) :=
  match assocGet c._getters query with
  | none => .ok none
  | some (name, response) =>
    match assocGet c._properties name with
    | none => .error .keyError
    | some p =>
      match p.get_value with
      | .error e => .error e
      | .ok v => .ok (some (utf8Encode (pyFormat response v)))

/-- The loop of `Component._match_setters` over the decoded query `q`:
try each setter in registration order; a parse failure (`ValueError` from
the pattern) skips to the next setter; on the first parse success, write
the property (a missing name is an uncaught `KeyError`): a successful
write returns the setter's response, a `ValueError` from the write returns
the setter's error response when it is a bytes value and the generic
command-error response otherwise, and any other exception propagates. -/
def matchSettersLoop (props : List (String × Property)) (genErr : RespVal) (q : String) :
    List Setter → Except PyErr (Option RespVal × List (String × Property))
  | [] => .ok (none, props)
  | s :: rest =>
    match s.parse q with
    | none => matchSettersLoop props genErr q rest
    | some value =>
      match assocGet props s.name with
      | none => .error .keyError
      | some p =>
        match p.set_value value with
        | .ok p' => .ok (some s.response, assocSet props s.name p')
        | .error e =>
          if e.isValueError then
            match s.error_response with
            | .bytes b => .ok (some (.bytes b), props)
            | .noResponse => .ok (some genErr, props)
          else .error e

/-- `Component._match_setters`: decode the query as UTF-8 (a failure is a
`UnicodeDecodeError` raised before any setter is tried), then scan the
setter list. -/
def Component._match_setters (c : Component) (query : Bytes) :
    Except PyErr (Option RespVal × List (String × Property)) :=
  match utf8Decode query with
  | none => .error .unicodeDecodeError
  | some cs => matchSettersLoop c._properties c.command_error ⟨cs⟩ c._setters

/-- The outcome of a `match` call: a response value (bytes or the
no-response sentinel), or the no-match signal. -/
inductive MatchOutcome where
  | response (r : RespVal)
  | noMatch
deriving DecidableEq

/-- Modelled from the spec: `Component.match` is abstract in the source
under `src/` (it raises `NotImplementedError`; the concrete composition
lives outside `src/`).  Following the spec, the query is tried against the
dialogue table, then the getter table, then the setter scan, in that fixed
order, and `NO_MATCH` is returned when no table produces a match; the
component with its possibly updated properties is returned alongside. -/
def Component.runMatch (c : Component) (query : Bytes) :
    Except PyErr (MatchOutcome × Component) :=
  match c._match_dialog query with
  | some r => .ok (.response r, c)
  | none =>
    match c._match_getters query with
    | .error e => .error e
    | .ok (some b) => .ok (.response (.bytes b), c)
    | .ok none =>
      match c._match_setters query with
      | .error e => .error e
      | .ok (some r, props) => .ok (.response r, { c with _properties := props })
      | .ok (none, _) => .ok (.noMatch, c)

/-- The `Property` invariant: the stored value re-validates to itself. -/
def PropInv (p : Property) : Prop :=
  validate_value p.specs p._value = .ok p._value

/-- Whether `specs['type']` is one of the three recognised constructors
(rather than an unconverted type string). -/
def TypeSpec.isCtor : TypeSpec → Bool
  | .other _ => false
  | _ => true

/-- Specs as `Property.__init__` leaves them: the type is one of the
three recognised constructors and the declared bounds were coerced to it. -/
def wfSpecs (s : Specs) : Prop :=
  s.type.isCtor = true ∧
  (∀ m, s.min = some m → typeOfVal m = s.type) ∧
  (∀ m, s.max = some m → typeOfVal m = s.type)

/-! ## Concrete fixtures used by the claim witnesses -/

/-- An int-typed `freq` property with bounds, as a device definition would
construct it (`min=0`, `max=2000`, default `1000`). -/
def wFreqProp : Property :=
  ⟨"freq", ⟨.int, some (.int 0), some (.int 2000), none⟩, .int 1000⟩

/-- A setter whose pattern coincidentally also fits the `*IDN?` dialogue
query. -/
def sIdn : Setter :=
  ⟨"freq", fun q => if q = "*IDN?" then some (.int 1) else none,
    .bytes (utf8Encode "SETIDN"), .noResponse⟩

/-- A setter for `FREQ 5` with byte-encoded success and error responses. -/
def sFreq : Setter :=
  ⟨"freq", fun q => if q = "FREQ 5" then some (.int 5) else none,
    .bytes (utf8Encode "OK1"), .bytes (utf8Encode "ERR1")⟩

/-- A setter whose pattern fits no query. -/
def sNone : Setter :=
  ⟨"freq", fun _ => none, .bytes (utf8Encode "NEVER"), .noResponse⟩

/-- A catch-all setter registered after `sFreq` (its pattern space strictly
contains that of `sFreq`). -/
def sP2 : Setter :=
  ⟨"freq", fun _ => some (.int 6), .bytes (utf8Encode "OK2"), .noResponse⟩

/-- A setter for `FREQ -5` (which violates the property minimum) with a
byte-encoded error response. -/
def sErrB : Setter :=
  ⟨"freq", fun q => if q = "FREQ -5" then some (.int (-5)) else none,
    .bytes (utf8Encode "OKB"), .bytes (utf8Encode "ERRB")⟩

/-- Like `sErrB` but with the `NoResponse` sentinel as error response. -/
def sErrN : Setter :=
  ⟨"freq", fun q => if q = "FREQ -5" then some (.int (-5)) else none,
    .bytes (utf8Encode "OKN"), .noResponse⟩

/-- The property table shared by the setter-scan witnesses. -/
def wProps : List (String × Property) := [("freq", wFreqProp)]

/-- A component with a dialogue, a getter and two setters, one of which
also fits the dialogue query. -/
def witComp : Component :=
  Component.add_dialogue
    ⟨[], wProps, [(to_bytesQ "FREQ?", ("freq", "{}"))], [sIdn, sFreq],
      .bytes (utf8Encode "CMDERR")⟩
    "*IDN?" (.str "SIM,DEVICE")

/-- The str-typed enumerated property used by the C6 and C7 witnesses, as
`Property.__init__` constructs it. -/
def c6prop : Property :=
  ⟨"state", ⟨.str, none, none,
    some (.vmap [(.str "0", .str "OFF"), (.str "1", .str "ON")])⟩, .str "0"⟩

/-- The int-typed property with a mixed-key display mapping used by the
C7 counterexample (exactly what `Property.__init__` produces: the dict
keys are left uncoerced). -/
def c7prop : Property :=
  ⟨"state", ⟨.int, none, none,
    some (.vmap [(.int 1, .str "ON"), (.str "2", .str "OFF")])⟩, .int 1⟩

/-- The in-range int property with `min=5` used by the C8 scenarios. -/
def c8prop : Property := ⟨"q", ⟨.int, some (.int 5), none, none⟩, .int 7⟩

/-- A component with a dialogue, a property and a setter, none of which
is keyed by the invalid byte sequence `[255]`. -/
def c10comp : Component :=
  ⟨[(to_bytesQ "*IDN?", to_bytes (.str "X"))], wProps, [], [sFreq],
    .bytes (utf8Encode "CMDERR")⟩

/-! ## Lemmas about coercion and validation -/

theorem coerce_ok_type {t : TypeSpec} {v w : PyVal} (h : coerceBy t v = .ok w) :
    typeOfVal w = t := by
  cases t with
  | float =>
    cases v with
    | int n => simp [coerceBy, pyFloatFn] at h; subst h; rfl
    | float q => simp [coerceBy, pyFloatFn] at h; subst h; rfl
    | str s =>
      simp only [coerceBy, pyFloatFn] at h
      cases hp : pyFloatParse s with
      | none => rw [hp] at h; simp at h
      | some q => rw [hp] at h; simp at h; subst h; rfl
  | int =>
    cases v with
    | int n => simp [coerceBy, pyIntFn] at h; subst h; rfl
    | float q => simp [coerceBy, pyIntFn] at h; subst h; rfl
    | str s =>
      simp only [coerceBy, pyIntFn] at h
      cases hp : pyIntParse s with
      | none => rw [hp] at h; simp at h
      | some n => rw [hp] at h; simp at h; subst h; rfl
  | str =>
    simp [coerceBy] at h; subst h; rfl
  | other s => simp [coerceBy] at h

theorem coerce_idem {t : TypeSpec} {v w : PyVal} (h : coerceBy t v = .ok w) :
    coerceBy t w = .ok w := by
  have ht := coerce_ok_type h
  cases w with
  | int n => cases t <;> simp_all [typeOfVal, coerceBy, pyIntFn]
  | float q => cases t <;> simp_all [typeOfVal, coerceBy, pyFloatFn]
  | str s => cases t <;> simp_all [typeOfVal, coerceBy, pyStrOf]

theorem validate_ok_iff {specs : Specs} {v w : PyVal} :
    validate_value specs v = .ok w ↔
      coerceBy specs.type v = .ok w ∧ checkMin specs w = none ∧
        checkMax specs w = none ∧ checkValid specs w = none := by
  constructor
  · intro h
    unfold validate_value at h
    split at h
    · exact absurd h (by simp)
    · rename_i vp hc
      split at h
      · exact absurd h (by simp)
      · rename_i hmin
        split at h
        · exact absurd h (by simp)
        · rename_i hmax
          split at h
          · exact absurd h (by simp)
          · rename_i hvalid
            simp only [Except.ok.injEq] at h
            subst h
            exact ⟨hc, hmin, hmax, hvalid⟩
  · rintro ⟨hc, hmin, hmax, hvalid⟩
    unfold validate_value
    simp only [hc, hmin, hmax, hvalid]

theorem validate_idem {specs : Specs} {v w : PyVal}
    (h : validate_value specs v = .ok w) : validate_value specs w = .ok w := by
  rcases validate_ok_iff.mp h with ⟨hc, hmin, hmax, hvalid⟩
  exact validate_ok_iff.mpr ⟨coerce_idem hc, hmin, hmax, hvalid⟩

theorem construct_inv {name : String} {v : PyVal} {sIn : SpecsIn} {p : Property}
    (h : Property.construct name v sIn = .ok p) : PropInv p := by
  simp only [Property.construct] at h
  split at h
  · exact absurd h (by simp)
  · split at h
    · exact absurd h (by simp)
    · split at h
      · exact absurd h (by simp)
      · split at h
        · exact absurd h (by simp)
        · rename_i hval
          simp only [Except.ok.injEq] at h
          subst h
          exact validate_idem hval

theorem set_value_inv {p p' : Property} {v : PyVal}
    (h : p.set_value v = .ok p') : PropInv p' := by
  unfold Property.set_value at h
  split at h
  · rename_i vp hval
    simp only [Except.ok.injEq] at h
    subst h
    exact validate_idem hval
  · exact absurd h (by simp)

theorem tryWrite_inv {p : Property} (v : PyVal) (h : PropInv p) :
    PropInv (tryWrite p v) := by
  unfold tryWrite
  split
  · rename_i p' hw; exact set_value_inv hw
  · exact h

theorem runWrites_inv {p : Property} (vs : List PyVal) (h : PropInv p) :
    PropInv (runWrites p vs) := by
  induction vs generalizing p with
  | nil => exact h
  | cons v vs ih => exact ih (tryWrite_inv v h)

theorem set_value_specs {p p' : Property} {v : PyVal}
    (h : p.set_value v = .ok p') : p'.specs = p.specs ∧ p'.name = p.name := by
  unfold Property.set_value at h
  split at h
  · simp only [Except.ok.injEq] at h; subst h; exact ⟨rfl, rfl⟩
  · exact absurd h (by simp)

theorem tryWrite_specs (p : Property) (v : PyVal) :
    (tryWrite p v).specs = p.specs := by
  unfold tryWrite
  split
  · rename_i p' hw; exact (set_value_specs hw).1
  · rfl

theorem runWrites_specs (p : Property) (vs : List PyVal) :
    (runWrites p vs).specs = p.specs := by
  induction vs generalizing p with
  | nil => rfl
  | cons v vs ih => rw [runWrites, ih, tryWrite_specs]

theorem find_of_any {α : Type} {l : List α} {pr : α → Bool} (h : l.any pr = true) :
    ∃ x, l.find? pr = some x := by
  induction l with
  | nil => simp at h
  | cons a t ih =>
    by_cases ha : pr a
    · exact ⟨a, by simp [List.find?, ha]⟩
    · simp only [List.any_cons, ha, Bool.false_or] at h
      rcases ih h with ⟨x, hx⟩
      exact ⟨x, by simp [List.find?, ha, hx]⟩

theorem get_value_isOk {p : Property} (h : PropInv p) :
    (p.get_value).isOk = true := by
  rcases validate_ok_iff.mp h with ⟨_, _, _, hvalid⟩
  cases hv : p.specs.valid with
  | none => simp only [Property.get_value, hv]; rfl
  | some vs =>
    cases vs with
    | vset l => simp only [Property.get_value, hv]; rfl
    | vmap m =>
      simp only [checkValid, hv] at hvalid
      split at hvalid
      · rename_i hany
        rcases find_of_any hany with ⟨kv, hkv⟩
        simp only [Property.get_value, hv, hkv]; rfl
      · exact absurd hvalid (by simp)

theorem coerceOpt_ok_typed {t : TypeSpec} {o o' : Option PyVal}
    (h : coerceOpt t o = .ok o') : ∀ m, o' = some m → typeOfVal m = t := by
  intro m hm
  cases o with
  | none => simp [coerceOpt] at h; subst h; simp at hm
  | some v =>
    simp only [coerceOpt] at h
    split at h
    · rename_i w hw
      simp only [Except.ok.injEq] at h
      subst h
      simp only [Option.some.injEq] at hm
      subst hm
      exact coerce_ok_type hw
    · exact absurd h (by simp)

theorem coerce_ok_isCtor {t : TypeSpec} {v w : PyVal}
    (h : coerceBy t v = .ok w) : t.isCtor = true := by
  cases t with
  | other s => simp [coerceBy] at h
  | float => rfl
  | int => rfl
  | str => rfl

theorem construct_wf {name : String} {v : PyVal} {sIn : SpecsIn} {p : Property}
    (h : Property.construct name v sIn = .ok p) : wfSpecs p.specs := by
  simp only [Property.construct] at h
  split at h
  · exact absurd h (by simp)
  · rename_i min' hmin
    split at h
    · exact absurd h (by simp)
    · rename_i max' hmax
      split at h
      · exact absurd h (by simp)
      · split at h
        · exact absurd h (by simp)
        · rename_i hval
          simp only [Except.ok.injEq] at h
          subst h
          rcases validate_ok_iff.mp hval with ⟨hc, _, _, _⟩
          exact ⟨coerce_ok_isCtor hc, coerceOpt_ok_typed hmin, coerceOpt_ok_typed hmax⟩

theorem coerce_err_cls {t : TypeSpec} {v : PyVal} {e : PyErr}
    (ht : t.isCtor = true) (h : coerceBy t v = .error e) :
    e.cls = .valueError := by
  cases t with
  | float =>
    cases v with
    | int n => simp [coerceBy, pyFloatFn] at h
    | float q => simp [coerceBy, pyFloatFn] at h
    | str s =>
      simp only [coerceBy, pyFloatFn] at h
      split at h
      · exact absurd h (by simp)
      · simp only [Except.error.injEq] at h; subst h; rfl
  | int =>
    cases v with
    | int n => simp [coerceBy, pyIntFn] at h
    | float q => simp [coerceBy, pyIntFn] at h
    | str s =>
      simp only [coerceBy, pyIntFn] at h
      split at h
      · exact absurd h (by simp)
      · simp only [Except.error.injEq] at h; subst h; rfl
  | str => simp [coerceBy] at h
  | other s => simp [TypeSpec.isCtor] at ht

theorem pyLt_sameType {a b : PyVal} (h : typeOfVal a = typeOfVal b) :
    ∃ bl, pyLt a b = .ok bl := by
  cases a <;> cases b <;> simp_all [typeOfVal, pyLt]

theorem checkMin_err_cls {specs : Specs} {vp : PyVal} {e : PyErr}
    (hw : wfSpecs specs) (hvt : typeOfVal vp = specs.type)
    (h : checkMin specs vp = some e) : e.cls = .valueError := by
  cases hm : specs.min with
  | none => simp [checkMin, hm] at h
  | some m =>
    rcases pyLt_sameType (a := vp) (b := m) (hvt.trans (hw.2.1 m hm).symm) with ⟨bl, hbl⟩
    cases bl with
    | false => simp [checkMin, hm, hbl] at h
    | true =>
      simp only [checkMin, hm, hbl, Option.some.injEq] at h
      subst h
      rfl

theorem checkMax_err_cls {specs : Specs} {vp : PyVal} {e : PyErr}
    (hw : wfSpecs specs) (hvt : typeOfVal vp = specs.type)
    (h : checkMax specs vp = some e) : e.cls = .valueError := by
  cases hm : specs.max with
  | none => simp [checkMax, hm] at h
  | some m =>
    rcases pyLt_sameType (a := m) (b := vp) ((hw.2.2 m hm).trans hvt.symm) with ⟨bl, hbl⟩
    cases bl with
    | false => simp [checkMax, pyGt, hm, hbl] at h
    | true =>
      simp only [checkMax, pyGt, hm, hbl, Option.some.injEq] at h
      subst h
      rfl

theorem checkValid_err_cls {specs : Specs} {vp : PyVal} {e : PyErr}
    (h : checkValid specs vp = some e) : e.cls = .valueError := by
  unfold checkValid at h
  split at h
  · simp at h
  · split at h
    · simp at h
    · simp only [Option.some.injEq] at h; subst h; rfl
  · split at h
    · simp at h
    · simp only [Option.some.injEq] at h; subst h; rfl

theorem validate_err_cls {specs : Specs} {v : PyVal} {e : PyErr}
    (hw : wfSpecs specs) (h : validate_value specs v = .error e) :
    e.cls = .valueError := by
  unfold validate_value at h
  split at h
  · rename_i e2 hc
    simp only [Except.error.injEq] at h
    subst h
    exact coerce_err_cls hw.1 hc
  · rename_i vp hc
    have hvt := coerce_ok_type hc
    split at h
    · rename_i e2 hmin
      simp only [Except.error.injEq] at h
      subst h
      exact checkMin_err_cls hw hvt hmin
    · split at h
      · rename_i e2 hmax
        simp only [Except.error.injEq] at h
        subst h
        exact checkMax_err_cls hw hvt hmax
      · split at h
        · rename_i e2 hvalid
          simp only [Except.error.injEq] at h
          subst h
          exact checkValid_err_cls hvalid
        · exact absurd h (by simp)

/-! ## Lemmas about the setter scan -/

theorem loop_skip {props : List (String × Property)} {genErr : RespVal} {q : String}
    {pre rest : List Setter} (hpre : ∀ t ∈ pre, t.parse q = none) :
    matchSettersLoop props genErr q (pre ++ rest) =
      matchSettersLoop props genErr q rest := by
  induction pre with
  | nil => rfl
  | cons t pre ih =>
    have ht : t.parse q = none := hpre t (by simp)
    simp only [List.cons_append, matchSettersLoop, ht]
    exact ih (fun u hu => hpre u (by simp [hu]))

theorem loop_first {props : List (String × Property)} {genErr : RespVal} {q : String}
    {s : Setter} {post : List Setter} {v : PyVal} (hs : s.parse q = some v) :
    matchSettersLoop props genErr q (s :: post) =
      matchSettersLoop props genErr q [s] := by
  simp only [matchSettersLoop, hs]

/-! ## Lemmas about escape expansion and encoding -/

theorem replace2_not_mem (o1 o2 nw : Char) :
    (l : List Char) → o1 ∉ l → replace2 o1 o2 nw l = l
  | [], _ => rfl
  | [_], _ => rfl
  | c1 :: c2 :: cs, h => by
    simp only [List.mem_cons, not_or] at h
    simp only [replace2, if_neg (fun hp : c1 = o1 ∧ c2 = o2 => h.1 hp.1.symm)]
    have := replace2_not_mem o1 o2 nw (c2 :: cs)
      (by simp only [List.mem_cons, not_or]; exact h.2)
    rw [this]

theorem replace2_splice (o1 o2 nw : Char) (l2 : List Char) :
    (l1 : List Char) → o1 ∉ l1 →
      replace2 o1 o2 nw (l1 ++ o1 :: o2 :: l2) = l1 ++ nw :: replace2 o1 o2 nw l2
  | [], _ => by simp [replace2]
  | c :: l1, h => by
    simp only [List.mem_cons, not_or] at h
    cases l1 with
    | nil =>
      show replace2 o1 o2 nw (c :: o1 :: o2 :: l2) = c :: nw :: replace2 o1 o2 nw l2
      simp only [replace2, if_neg (fun hp : c = o1 ∧ o1 = o2 => h.1 hp.1.symm)]
      simp [replace2]
    | cons d l1 =>
      have step := replace2_splice o1 o2 nw l2 (d :: l1) h.2
      simp only [List.cons_append] at step ⊢
      simp only [replace2, if_neg (fun hp : c = o1 ∧ d = o2 => h.1 hp.1.symm)]
      rw [step]

theorem encodeL_append (a b : List Char) :
    utf8EncodeL (a ++ b) = utf8EncodeL a ++ utf8EncodeL b := by
  induction a with
  | nil => rfl
  | cons c cs ih => simp [utf8EncodeL, ih]

/-! ## The claims -/

/-- C1: for every component and byte query, the (spec-modelled) `match`
composition tries dialogues first (an exact byte lookup that wins even
when a setter pattern also fits the query), then getters, then the setter
scan, and returns the no-match signal when no table matches. -/
theorem C1_match_order :
    (∀ (c : Component) (q : Bytes) (r : RespVal),
        c._match_dialog q = some r → c.runMatch q = .ok (.response r, c)) ∧
    (∀ (c : Component) (q b : Bytes),
        c._match_dialog q = none → c._match_getters q = .ok (some b) →
          c.runMatch q = .ok (.response (.bytes b), c)) ∧
    (∀ (c : Component) (q : Bytes) (props : List (String × Property)),
        c._match_dialog q = none → c._match_getters q = .ok none →
          c._match_setters q = .ok (none, props) →
            c.runMatch q = .ok (.noMatch, c)) := by
  refine ⟨?_, ?_, ?_⟩
  · intro c q r h
    unfold Component.runMatch
    simp only [h]
  · intro c q b h1 h2
    unfold Component.runMatch
    simp only [h1, h2]
  · intro c q props h1 h2 h3
    unfold Component.runMatch
    simp only [h1, h2, h3]

/-- C1 witness: on the concrete component, the `*IDN?` query (which also
fits a setter pattern) yields the dialogue response, the `FREQ?` query the
formatted getter response, and an unregistered query the no-match
signal. -/
theorem C1_match_order_witness :
    witComp.runMatch (to_bytesQ "*IDN?") =
      .ok (.response (to_bytes (.str "SIM,DEVICE")), witComp) ∧
    witComp.runMatch (to_bytesQ "FREQ?") =
      .ok (.response (.bytes (utf8Encode "1000")), witComp) ∧
    witComp.runMatch (to_bytesQ "BOGUS?") = .ok (.noMatch, witComp) :=
  ⟨C1_match_order.1 witComp (to_bytesQ "*IDN?") (to_bytes (.str "SIM,DEVICE"))
      (by decide),
   C1_match_order.2.1 witComp (to_bytesQ "FREQ?") (utf8Encode "1000")
      (by decide) (by decide),
   C1_match_order.2.2 witComp (to_bytesQ "BOGUS?") witComp._properties
      (by decide) (by decide) (by decide)⟩

/-- C2: the setter scan tries patterns in registration order: a prefix of
setters whose reverse-parse fails on the query is skipped without error,
and the first setter whose parse succeeds determines the outcome — the
scan of `pre ++ s :: post` equals the scan of `[s]` alone, independent of
the later patterns, and on a successful write it returns that setter's
response and property update. -/
theorem C2_setter_order :
    (∀ (props : List (String × Property)) (g : RespVal) (q : String)
        (pre rest : List Setter),
        (∀ t ∈ pre, t.parse q = none) →
          matchSettersLoop props g q (pre ++ rest) = matchSettersLoop props g q rest) ∧
    (∀ (props : List (String × Property)) (g : RespVal) (q : String)
        (s : Setter) (post : List Setter) (v : PyVal),
        s.parse q = some v →
          matchSettersLoop props g q (s :: post) = matchSettersLoop props g q [s]) ∧
    (∀ (props : List (String × Property)) (g : RespVal) (q : String)
        (pre post : List Setter) (s : Setter) (v : PyVal) (p p' : Property),
        (∀ t ∈ pre, t.parse q = none) → s.parse q = some v →
          assocGet props s.name = some p → p.set_value v = .ok p' →
            matchSettersLoop props g q (pre ++ s :: post) =
              .ok (some s.response, assocSet props s.name p')) := by
  refine ⟨?_, ?_, ?_⟩
  · intro props g q pre rest hpre
    exact loop_skip hpre
  · intro props g q s post v hs
    exact loop_first hs
  · intro props g q pre post s v p p' hpre hs hget hset
    rw [loop_skip hpre]
    simp only [matchSettersLoop, hs, hget, hset]

/-- C2 witness: with setters `[sNone, sFreq, sP2]` in that order and the
query `FREQ 5` — which `sNone` fails to parse and both `sFreq` and `sP2`
accept — the scan returns `sFreq`'s response and write. -/
theorem C2_setter_order_witness :
    matchSettersLoop wProps (.bytes (utf8Encode "CMDERR")) "FREQ 5"
        ([sNone] ++ sFreq :: [sP2]) =
      .ok (some (.bytes (utf8Encode "OK1")),
        assocSet wProps "freq" ⟨"freq", wFreqProp.specs, .int 5⟩) ∧
    matchSettersLoop wProps (.bytes (utf8Encode "CMDERR")) "FREQ 5" (sFreq :: [sP2]) =
      matchSettersLoop wProps (.bytes (utf8Encode "CMDERR")) "FREQ 5" [sFreq] :=
  ⟨C2_setter_order.2.2 wProps (.bytes (utf8Encode "CMDERR")) "FREQ 5"
      [sNone] [sP2] sFreq (.int 5) wFreqProp ⟨"freq", wFreqProp.specs, .int 5⟩
      (by intro t ht; rw [List.mem_singleton] at ht; subst ht; rfl)
      (by rfl) (by decide) (by decide),
   C2_setter_order.2.1 wProps (.bytes (utf8Encode "CMDERR")) "FREQ 5"
      sFreq [sP2] (.int 5) (by rfl)⟩

/-- C3: a failed write leaves the property object unchanged —
validate-before-commit: when `set_value` raises, the state the caller
observes afterwards is the prior state and a read returns what it
returned before the failed write. -/
theorem C3_validate_before_commit :
    ∀ (p : Property) (v : PyVal) (e : PyErr),
      p.set_value v = .error e →
        tryWrite p v = p ∧ (tryWrite p v).get_value = p.get_value := by
  intro p v e h
  have ht : tryWrite p v = p := by
    unfold tryWrite
    simp only [h]
  exact ⟨ht, by rw [ht]⟩

/-- C3 witness: writing `3` to an int property with `min=5` fails and the
stored value and its read are unchanged. -/
theorem C3_validate_before_commit_witness :
    tryWrite ⟨"q", ⟨.int, some (.int 5), none, none⟩, .int 7⟩ (.int 3) =
        ⟨"q", ⟨.int, some (.int 5), none, none⟩, .int 7⟩ ∧
      (tryWrite ⟨"q", ⟨.int, some (.int 5), none, none⟩, .int 7⟩ (.int 3)).get_value =
        (⟨"q", ⟨.int, some (.int 5), none, none⟩, .int 7⟩ : Property).get_value :=
  C3_validate_before_commit ⟨"q", ⟨.int, some (.int 5), none, none⟩, .int 7⟩
    (.int 3) (.valueError none) (by decide)

/-- C4: a write first coerces the raw value to the effective type (a
coercion failure is reported as such), then checks the constraints in the
fixed order min, max, valid-membership — a value below `min` is rejected
with the bare `ValueError` regardless of the later checks, and only when
every check passes does `set_value` replace the stored value with the
coerced value (and conversely, a successful write implies every check
passed on the stored coerced value). -/
theorem C4_write_check_order :
    (∀ (specs : Specs) (v : PyVal) (e : PyErr),
        coerceBy specs.type v = .error e → validate_value specs v = .error e) ∧
    (∀ (specs : Specs) (v vp m : PyVal),
        coerceBy specs.type v = .ok vp → specs.min = some m →
          pyLt vp m = .ok true → validate_value specs v = .error (.valueError none)) ∧
    (∀ (specs : Specs) (v vp m : PyVal),
        coerceBy specs.type v = .ok vp → checkMin specs vp = none →
          specs.max = some m → pyGt vp m = .ok true →
            validate_value specs v = .error (.valueError none)) ∧
    (∀ (specs : Specs) (v vp : PyVal) (e : PyErr),
        coerceBy specs.type v = .ok vp → checkMin specs vp = none →
          checkMax specs vp = none → checkValid specs vp = some e →
            validate_value specs v = .error e) ∧
    (∀ (p : Property) (v vp : PyVal),
        coerceBy p.specs.type v = .ok vp → checkMin p.specs vp = none →
          checkMax p.specs vp = none → checkValid p.specs vp = none →
            p.set_value v = .ok ⟨p.name, p.specs, vp⟩) ∧
    (∀ (p p' : Property) (v : PyVal),
        p.set_value v = .ok p' →
          coerceBy p.specs.type v = .ok p'._value ∧
            checkMin p.specs p'._value = none ∧ checkMax p.specs p'._value = none ∧
            checkValid p.specs p'._value = none ∧ p'.specs = p.specs ∧
            p'.name = p.name) := by
  refine ⟨?_, ?_, ?_, ?_, ?_, ?_⟩
  · intro specs v e h
    unfold validate_value
    simp only [h]
  · intro specs v vp m hc hm hlt
    unfold validate_value
    simp only [hc, checkMin, hm, hlt]
  · intro specs v vp m hc hmin hm hgt
    unfold validate_value
    simp only [hc, hmin, checkMax, hm, hgt]
  · intro specs v vp e hc hmin hmax hvalid
    unfold validate_value
    simp only [hc, hmin, hmax, hvalid]
  · intro p v vp hc hmin hmax hvalid
    unfold Property.set_value
    simp only [validate_ok_iff.mpr ⟨hc, hmin, hmax, hvalid⟩]
  · intro p p' v h
    unfold Property.set_value at h
    split at h
    · rename_i vp hval
      simp only [Except.ok.injEq] at h
      subst h
      rcases validate_ok_iff.mp hval with ⟨hc, hmin, hmax, hvalid⟩
      exact ⟨hc, hmin, hmax, hvalid, rfl, rfl⟩
    · exact absurd h (by simp)

/-- C4 witness: an uncoercible value fails at coercion; a value below
`min` is rejected with the bare `ValueError` even though it is also absent
from `valid`; a value above `max` and a value outside `valid` are rejected
in turn; and an in-range value replaces the stored value. -/
theorem C4_write_check_order_witness :
    validate_value ⟨.int, none, none, none⟩ (.str "abc") =
        .error (.valueError (some "invalid literal for int with base 10: abc")) ∧
    validate_value ⟨.int, some (.int 5), none, some (.vset [.int 9])⟩ (.int 3) =
        .error (.valueError none) ∧
    validate_value ⟨.int, some (.int 0), some (.int 10), none⟩ (.int 20) =
        .error (.valueError none) ∧
    validate_value ⟨.int, none, none, some (.vset [.int 1])⟩ (.int 2) =
        .error (.valueError (some "expected value to be in valid")) ∧
    Property.set_value wFreqProp (.int 500) =
        .ok ⟨"freq", wFreqProp.specs, .int 500⟩ ∧
    checkValid wFreqProp.specs (PyVal.int 500) = none :=
  ⟨C4_write_check_order.1 ⟨.int, none, none, none⟩ (.str "abc")
      (.valueError (some "invalid literal for int with base 10: abc")) (by decide),
   C4_write_check_order.2.1 ⟨.int, some (.int 5), none, some (.vset [.int 9])⟩
      (.int 3) (.int 3) (.int 5) (by decide) (by decide) (by decide),
   C4_write_check_order.2.2.1 ⟨.int, some (.int 0), some (.int 10), none⟩
      (.int 20) (.int 20) (.int 10) (by decide) (by decide) (by decide) (by decide),
   C4_write_check_order.2.2.2.1 ⟨.int, none, none, some (.vset [.int 1])⟩
      (.int 2) (.int 2) (.valueError (some "expected value to be in valid"))
      (by decide) (by decide) (by decide) (by decide),
   C4_write_check_order.2.2.2.2.1 wFreqProp (.int 500) (.int 500)
      (by decide) (by decide) (by decide) (by decide),
   (C4_write_check_order.2.2.2.2.2 wFreqProp ⟨"freq", wFreqProp.specs, .int 500⟩
      (.int 500) (by decide)).2.2.2.1⟩

/-- C5: when a setter's pattern matches the query and the property write
fails with a `ValueError` (a constraint violation), the scan returns the
setter's configured error response when it is byte-encoded and the generic
command-error response otherwise; in both cases the result is a normal
return, so the exception does not escape the scan. -/
theorem C5_setter_error_response :
    (∀ (props : List (String × Property)) (g : RespVal) (q : String)
        (s : Setter) (post : List Setter) (v : PyVal) (p : Property)
        (e : PyErr) (b : Bytes),
        s.parse q = some v → assocGet props s.name = some p →
          p.set_value v = .error e → e.isValueError = true →
            s.error_response = .bytes b →
              matchSettersLoop props g q (s :: post) = .ok (some (.bytes b), props)) ∧
    (∀ (props : List (String × Property)) (g : RespVal) (q : String)
        (s : Setter) (post : List Setter) (v : PyVal) (p : Property) (e : PyErr),
        s.parse q = some v → assocGet props s.name = some p →
          p.set_value v = .error e → e.isValueError = true →
            s.error_response = .noResponse →
              matchSettersLoop props g q (s :: post) = .ok (some g, props)) := by
  constructor
  · intro props g q s post v p e b hs hget hset hisv herr
    simp [matchSettersLoop, hs, hget, hset, hisv, herr]
  · intro props g q s post v p e hs hget hset hisv herr
    simp [matchSettersLoop, hs, hget, hset, hisv, herr]

/-- C5 witness: `FREQ -5` violates the minimum of `freq`; with a
byte-encoded error response that response is returned, and with the
`NoResponse` sentinel as configured error response the generic
command-error response is returned — both as normal results. -/
theorem C5_setter_error_response_witness :
    matchSettersLoop wProps (.bytes (utf8Encode "CMDERR")) "FREQ -5" [sErrB] =
      .ok (some (.bytes (utf8Encode "ERRB")), wProps) ∧
    matchSettersLoop wProps (.bytes (utf8Encode "CMDERR")) "FREQ -5" [sErrN] =
      .ok (some (.bytes (utf8Encode "CMDERR")), wProps) :=
  ⟨C5_setter_error_response.1 wProps (.bytes (utf8Encode "CMDERR")) "FREQ -5"
      sErrB [] (.int (-5)) wFreqProp (.valueError none) (utf8Encode "ERRB")
      (by rfl) (by decide) (by decide) (by decide) (by rfl),
   C5_setter_error_response.2 wProps (.bytes (utf8Encode "CMDERR")) "FREQ -5"
      sErrN [] (.int (-5)) wFreqProp (.valueError none)
      (by rfl) (by decide) (by decide) (by decide) (by rfl)⟩

/-- C6: for a property that was successfully constructed, after any
sequence of write attempts (successful or failed) the stored value still
coerces to itself under the effective type, passes the `min`, `max` and
`valid` checks, has the effective runtime type, and a read of the property
succeeds — in particular the display lookup for a mapping-valued `valid`
always finds the stored value. -/
theorem C6_stored_value_invariant :
    ∀ (name : String) (v0 : PyVal) (sIn : SpecsIn) (p : Property) (vs : List PyVal),
      Property.construct name v0 sIn = .ok p →
        coerceBy (runWrites p vs).specs.type (runWrites p vs)._value =
            .ok (runWrites p vs)._value ∧
          checkMin (runWrites p vs).specs (runWrites p vs)._value = none ∧
          checkMax (runWrites p vs).specs (runWrites p vs)._value = none ∧
          checkValid (runWrites p vs).specs (runWrites p vs)._value = none ∧
          typeOfVal (runWrites p vs)._value = (runWrites p vs).specs.type ∧
          ((runWrites p vs).get_value).isOk = true := by
  intro name v0 sIn p vs h
  have hinv : PropInv (runWrites p vs) := runWrites_inv vs (construct_inv h)
  rcases validate_ok_iff.mp hinv with ⟨hc, hmin, hmax, hvalid⟩
  exact ⟨hc, hmin, hmax, hvalid, coerce_ok_type hc, get_value_isOk hinv⟩

/-- C6 witness: the enumerated `state` property stays valid and readable
after a successful write of `1` followed by a rejected write of `2`. -/
theorem C6_stored_value_invariant_witness :
    coerceBy (runWrites c6prop [.str "1", .str "2"]).specs.type
        (runWrites c6prop [.str "1", .str "2"])._value =
        .ok (runWrites c6prop [.str "1", .str "2"])._value ∧
      checkMin (runWrites c6prop [.str "1", .str "2"]).specs
        (runWrites c6prop [.str "1", .str "2"])._value = none ∧
      checkMax (runWrites c6prop [.str "1", .str "2"]).specs
        (runWrites c6prop [.str "1", .str "2"])._value = none ∧
      checkValid (runWrites c6prop [.str "1", .str "2"]).specs
        (runWrites c6prop [.str "1", .str "2"])._value = none ∧
      typeOfVal (runWrites c6prop [.str "1", .str "2"])._value =
        (runWrites c6prop [.str "1", .str "2"]).specs.type ∧
      ((runWrites c6prop [.str "1", .str "2"]).get_value).isOk = true :=
  C6_stored_value_invariant "state" (.str "0")
    ⟨some "str", none, none,
      some (.vdict [(.str "0", .str "OFF"), (.str "1", .str "ON")])⟩
    c6prop [.str "1", .str "2"] (by decide)

/-- C7 counterexample: for an int-typed property with the display mapping
`{1: "ON", "2": "OFF"}`, construction succeeds with the mapping keys left
uncoerced (the key `"2"` is still a string in the stored specs), and
writing the mapping key `"2"` is rejected (its coercion `2` is not among
the keys under Python equality), so a subsequent read returns `"ON"`, not
the key's display value `"OFF"` — refuting both the coercion of mapping
entries and the round trip for every key. -/
theorem C7_mapping_roundtrip_cex :
    Property.construct "state" (.int 1)
        ⟨some "int", none, none,
          some (.vdict [(.int 1, .str "ON"), (.str "2", .str "OFF")])⟩ =
      .ok c7prop ∧
    c7prop.specs.valid =
      some (.vmap [(.int 1, .str "ON"), (.str "2", .str "OFF")]) ∧
    (c7prop.set_value (.str "2")).isOk = false ∧
    (tryWrite c7prop (.str "2")).get_value = .ok (.str "ON") ∧
    PyVal.str "ON" ≠ PyVal.str "OFF" := by
  decide

/-- C7 amended: the constructor coerces `min`, `max` and set-form `valid`
entries but passes a mapping-form `valid` through with its keys uncoerced;
consequently the write-then-read round trip through the display mapping
holds for a key that is fixed by coercion — here, any string key of a
str-typed unbounded property whose display value it determines — rather
than for every key of every mapping. -/
theorem C7_mapping_roundtrip_amended :
    (∀ (name : String) (v0 : PyVal) (sIn : SpecsIn) (p : Property)
        (m : List (PyVal × PyVal)),
        Property.construct name v0 sIn = .ok p → sIn.valid = some (.vdict m) →
          p.specs.valid = some (.vmap m)) ∧
    (∀ (name : String) (v0 : PyVal) (sIn : SpecsIn) (p : Property)
        (m : List (PyVal × PyVal)) (s : String) (d : PyVal),
        Property.construct name v0 sIn = .ok p →
          p.specs.type = .str → p.specs.min = none → p.specs.max = none →
            p.specs.valid = some (.vmap m) → (PyVal.str s, d) ∈ m →
              (∀ kv ∈ m, pyEq (.str s) kv.1 = true → kv.2 = d) →
                p.set_value (.str s) = .ok ⟨p.name, p.specs, .str s⟩ ∧
                  Property.get_value ⟨p.name, p.specs, .str s⟩ = .ok d) := by
  constructor
  · intro name v0 sIn p m h hv
    simp only [Property.construct] at h
    split at h
    · exact absurd h (by simp)
    · split at h
      · exact absurd h (by simp)
      · split at h
        · exact absurd h (by simp)
        · rename_i valid' hval
          split at h
          · exact absurd h (by simp)
          · simp only [Except.ok.injEq] at h
            subst h
            rw [hv] at hval
            simp only [coerceValidIn, Except.ok.injEq] at hval
            exact hval.symm
  · intro name v0 sIn p m s d h htype hmin hmax hvalid hmem huniq
    have hc : coerceBy p.specs.type (.str s) = .ok (.str s) := by
      rw [htype]; rfl
    have hmin2 : checkMin p.specs (.str s) = none := by
      unfold checkMin; rw [hmin]
    have hmax2 : checkMax p.specs (.str s) = none := by
      unfold checkMax; rw [hmax]
    have hany : m.any (fun kv => pyEq (.str s) kv.1) = true := by
      rw [List.any_eq_true]
      exact ⟨(.str s, d), hmem, by simp [pyEq]⟩
    have hvalid2 : checkValid p.specs (.str s) = none := by
      unfold checkValid; rw [hvalid]
      simp only [hany, if_pos]
    have hset : p.set_value (.str s) = .ok ⟨p.name, p.specs, .str s⟩ := by
      unfold Property.set_value
      simp only [validate_ok_iff.mpr ⟨hc, hmin2, hmax2, hvalid2⟩]
    refine ⟨hset, ?_⟩
    rcases find_of_any hany with ⟨kv, hkv⟩
    have hmem2 : kv ∈ m := List.mem_of_find?_eq_some hkv
    have hpkv := List.find?_some hkv
    have hkv2 : kv.2 = d := huniq kv hmem2 (by simpa using hpkv)
    unfold Property.get_value
    simp only [hvalid, hkv, hkv2]

/-- C7 amended witness: on the str-typed `state` property with mapping
`{"0": "OFF", "1": "ON"}`, writing the key `"1"` succeeds and reading
returns `"ON"`. -/
theorem C7_mapping_roundtrip_amended_witness :
    c6prop.set_value (.str "1") = .ok ⟨c6prop.name, c6prop.specs, .str "1"⟩ ∧
    Property.get_value ⟨c6prop.name, c6prop.specs, .str "1"⟩ = .ok (.str "ON") :=
  C7_mapping_roundtrip_amended.2 "state" (.str "0")
    ⟨some "str", none, none,
      some (.vdict [(.str "0", .str "OFF"), (.str "1", .str "ON")])⟩
    c6prop [(.str "0", .str "OFF"), (.str "1", .str "ON")] "1" (.str "ON")
    (by decide) (by decide) (by decide) (by decide) (by decide) (by decide)
    (by decide)

/-- C8 counterexample: a default value that cannot be coerced to the
declared int type aborts construction with a `ValueError`, and a coercible
value violating `min` also fails with a `ValueError` — the two failure
kinds carry the same exception class, so a caller cannot tell them apart
by exception type, refuting the claimed distinct typing. -/
theorem C8_error_classes_cex :
    Property.construct "p" (.str "abc") ⟨some "int", none, none, none⟩ =
      .error (.valueError (some "invalid literal for int with base 10: abc")) ∧
    Property.construct "q" (.int 7) ⟨some "int", some (.int 5), none, none⟩ =
      .ok c8prop ∧
    c8prop.set_value (.int 3) = .error (.valueError none) ∧
    PyErr.cls (.valueError (some "invalid literal for int with base 10: abc")) =
      PyErr.cls (.valueError none) := by
  decide

/-- C8 amended: the two failure kinds exist at distinct program points —
an uncoercible raw value fails at the coercion step (at construction this
aborts the creation), a coercible value violating `min`/`max`/`valid`
fails at the constraint step — but on any constructed property both are
raised as the same exception class `ValueError`, so they are not
distinguishable by exception type. -/
theorem C8_error_classes_amended :
    ∀ (name : String) (v0 : PyVal) (sIn : SpecsIn) (p : Property)
      (v : PyVal) (e : PyErr),
      Property.construct name v0 sIn = .ok p → p.set_value v = .error e →
        e.cls = .valueError := by
  intro name v0 sIn p v e h hset
  have hw := construct_wf h
  unfold Property.set_value at hset
  split at hset
  · exact absurd hset (by simp)
  · rename_i e2 hval
    simp only [Except.error.injEq] at hset
    subst hset
    exact validate_err_cls hw hval

/-- C8 amended witness: the constraint failure on the constructed `q`
property is a `ValueError`. -/
theorem C8_error_classes_amended_witness :
    PyErr.cls (.valueError none) = .valueError :=
  C8_error_classes_amended "q" (.int 7) ⟨some "int", some (.int 5), none, none⟩
    c8prop (.int 3) (.valueError none) (by decide) (by decide)

theorem replace2_no_pair (o1 o2 nw x : Char) (l2 : List Char) :
    (l1 : List Char) → o1 ∉ l1 → x ≠ o2 → x ≠ o1 → o1 ∉ l2 →
      replace2 o1 o2 nw (l1 ++ o1 :: x :: l2) = l1 ++ o1 :: x :: l2
  | [], _, hx, hxo, h2 => by
    have hnm := replace2_not_mem o1 o2 nw (x :: l2)
      (by simp only [List.mem_cons, not_or]; exact ⟨fun he => hxo he.symm, h2⟩)
    simp only [List.nil_append]
    simp [replace2, hx, hnm]
  | c :: l1, h, hx, hxo, h2 => by
    simp only [List.mem_cons, not_or] at h
    cases l1 with
    | nil =>
      have hnm := replace2_not_mem o1 o2 nw (x :: l2)
        (by simp only [List.mem_cons, not_or]; exact ⟨fun he => hxo he.symm, h2⟩)
      show replace2 o1 o2 nw (c :: o1 :: x :: l2) = c :: o1 :: x :: l2
      simp [replace2, hx, hnm, Ne.symm h.1]
    | cons e l1 =>
      have step := replace2_no_pair o1 o2 nw x l2 (e :: l1) h.2 hx hxo h2
      simp only [List.cons_append] at step ⊢
      simp only [replace2, if_neg (fun hp : c = o1 ∧ e = o2 => h.1 hp.1.symm)]
      rw [step]

/-- C9: `to_bytes` expands the two-character escapes backslash-r and
backslash-n to the single control bytes 13 and 10 before UTF-8 encoding
(shown for any occurrence between backslash-free context strings), passes
the `NoResponse` sentinel through unchanged, and the sentinel is a value
distinct from the empty byte string. -/
theorem C9_to_bytes_escapes :
    (∀ (s t : String), '\\' ∉ s.data → '\\' ∉ t.data →
        to_bytes (.str (s ++ "\\r" ++ t)) =
            .bytes (utf8Encode s ++ 13 :: utf8Encode t) ∧
          to_bytes (.str (s ++ "\\n" ++ t)) =
            .bytes (utf8Encode s ++ 10 :: utf8Encode t)) ∧
    to_bytes .noResponse = .noResponse ∧
    RespVal.noResponse ≠ RespVal.bytes [] := by
  refine ⟨?_, rfl, by decide⟩
  intro s t hs ht
  have hclean : ∀ (c : Char), c ≠ '\\' → '\\' ∉ s.data ++ c :: t.data := by
    intro c hc hmem
    rcases List.mem_append.mp hmem with h1 | h2
    · exact hs h1
    · rcases List.mem_cons.mp h2 with h3 | h4
      · exact hc h3.symm
      · exact ht h4
  constructor
  · have hdata : (s ++ "\\r" ++ t).data = s.data ++ '\\' :: 'r' :: t.data := by
      simp [String.data_append, List.append_assoc]
    show RespVal.bytes
        (utf8EncodeL (replace2 '\\' 'n' '\n'
          (replace2 '\\' 'r' '\x0d' (s ++ "\\r" ++ t).data))) =
      .bytes (utf8EncodeL s.data ++ 13 :: utf8EncodeL t.data)
    rw [hdata, replace2_splice '\\' 'r' '\x0d' t.data s.data hs,
      replace2_not_mem '\\' 'r' '\x0d' t.data ht,
      replace2_not_mem '\\' 'n' '\n' (s.data ++ '\x0d' :: t.data)
        (hclean '\x0d' (by decide)),
      encodeL_append]
    rfl
  · have hdata : (s ++ "\\n" ++ t).data = s.data ++ '\\' :: 'n' :: t.data := by
      simp [String.data_append, List.append_assoc]
    show RespVal.bytes
        (utf8EncodeL (replace2 '\\' 'n' '\n'
          (replace2 '\\' 'r' '\x0d' (s ++ "\\n" ++ t).data))) =
      .bytes (utf8EncodeL s.data ++ 10 :: utf8EncodeL t.data)
    rw [hdata,
      replace2_no_pair '\\' 'r' '\x0d' 'n' t.data s.data hs (by decide) (by decide) ht,
      replace2_splice '\\' 'n' '\n' t.data s.data hs,
      replace2_not_mem '\\' 'n' '\n' t.data ht,
      encodeL_append]
    rfl

/-- C9 witness: concrete expansion of both escapes between
backslash-free strings. -/
theorem C9_to_bytes_escapes_witness :
    to_bytes (.str ("OK" ++ "\\r" ++ "GO")) =
        .bytes (utf8Encode "OK" ++ 13 :: utf8Encode "GO") ∧
      to_bytes (.str ("OK" ++ "\\n" ++ "GO")) =
        .bytes (utf8Encode "OK" ++ 10 :: utf8Encode "GO") :=
  C9_to_bytes_escapes.1 "OK" "GO" (by decide) (by decide)

/-- C10: the setter scan decodes the query before any pattern is tried,
so on every query that is not valid UTF-8 it raises the decode error out
of the matcher instead of returning the no-match result; the byte string
`[255]` is such a query for the concrete component (it is neither a
dialogue nor a getter there), so the scan is total only on UTF-8-decodable
queries. -/
theorem C10_setter_scan_decode :
    (∀ (c : Component) (q : Bytes), utf8Decode q = none →
        c._match_setters q = .error .unicodeDecodeError) ∧
    utf8Decode [255] = none ∧
    c10comp._match_dialog [255] = none ∧
    c10comp._match_getters [255] = .ok none ∧
    c10comp._match_setters [255] = .error .unicodeDecodeError := by
  refine ⟨?_, by decide, by decide, by decide, by decide⟩
  intro c q h
  unfold Component._match_setters
  simp only [h]

/-- C10 witness: the universally quantified part applied to the concrete
component and the invalid byte `[255]`. -/
theorem C10_setter_scan_decode_witness :
    c10comp._match_setters [255] = .error .unicodeDecodeError :=
  C10_setter_scan_decode.1 c10comp [255] (by decide)

end PyvisaSim
